import Mathlib

/-!
Verification of Codemm-IDE's generation/validation pipeline and judge
utilities against a shallow Lean embedding of the backend code.

Embedded directly from source files under `apps/backend`:
  * `src/judge/docker.ts` (`getJudgeTimeoutMs`)
  * `src/judge/files.ts` (`isSubPath`, `writeUserFiles`)
  * `ipc-server.js` (`threads.subscribeGeneration` result shape)

The spec-negotiation state machine, planner, slot generation pipeline and
progress bus (`src/services/sessionService.ts`, `src/planner`,
`src/generation/*`) are not part of the provided sources; those components
are modelled from the written specification and from the behaviour pinned
down by the end-to-end tests, and each such definition is marked
`Modelled from the spec:` in its doc comment.
-/

namespace Codemm

/-! ## JavaScript number values, as observed by `Number(raw)` -/

/-- Result of JavaScript `Number(raw)` on a set, non-empty environment string:
either NaN (non-numeric), an infinity, or a finite value (modelled as a
rational, which is exact for every decimal literal). -/
inductive JsNum where
  | nan : JsNum
  | posInf : JsNum
  | negInf : JsNum
  | finite : ℚ → JsNum
deriving DecidableEq

/-- `Number.isFinite` on a `JsNum`. -/
def JsNum.isFinite : JsNum → Bool
  | .finite _ => true
  | _ => false

/-- Embedding of `getJudgeTimeoutMs` from `src/judge/docker.ts`.
The input is `none` when `JUDGE_TIMEOUT_MS` is unset or empty (both falsy in
JS), otherwise `some (Number raw)`.  The source returns 15000 when the value
is missing, non-finite or not positive, and otherwise
`Math.min(Math.floor(n), 30_000)`. -/
def getJudgeTimeoutMs : Option JsNum → ℤ
  | none => 15000
  | some v =>
    match v with
    | .finite q => if q ≤ 0 then 15000 else min (Rat.floor q) 30000
    | _ => 15000

/-! ## Path handling for `src/judge/files.ts` (POSIX branch)

Paths are modelled as lists of segments.  `path.resolve` normalisation of
an absolute path is segment-wise processing of `..`, `.` and empty
segments. -/

/-- One step of POSIX path normalisation: `..` pops the last segment (or is a
no-op at the filesystem root), `.` and empty segments vanish. -/
def normStep (acc : List String) (seg : String) : List String :=
  if seg = ".." then acc.dropLast
  else if seg = "." ∨ seg = "" then acc
  else acc ++ [seg]

/-- Normalise the segment list of an absolute path, as `path.resolve` does. -/
def normalizeSegs (segs : List String) : List String :=
  segs.foldl normStep []

/-- `path.resolve(root, filename)` for an already-normalised absolute `root`
and a relative `filename` (split into raw segments):  the concatenation is
normalised. -/
def resolveSegs (root : List String) (fileSegs : List String) : List String :=
  (fileSegs.foldl normStep root)

/-- Embedding of `isSubPath` from `src/judge/files.ts` (POSIX branch):
`full === root || full.startsWith(root + path.sep)`.  On normalised segment
lists the string test `full.startsWith(root + "/")` is exactly "`root` is a
proper prefix of `full`". -/
def isSubPathSegs (root full : List String) : Bool :=
  full == root || (full.take root.length == root && root.length < full.length)

/-- Splitting a character list on `/` (the semantics of `split("/")`,
keeping empty segments). -/
def splitSegsAux : List Char → List Char → List String
  | [], cur => [String.mk cur.reverse]
  | c :: rest, cur =>
    if c = '/' then String.mk cur.reverse :: splitSegsAux rest []
    else splitSegsAux rest (c :: cur)

/-- Split a filename string on `/`, as the path resolver consumes it. -/
def splitSlashes (s : String) : List String :=
  splitSegsAux s.data []

/-- `path.isAbsolute` on POSIX: the string starts with a slash. -/
def isAbsoluteName (s : String) : Bool :=
  match s.data with
  | [] => false
  | c :: _ => c = '/'

/-- The NUL-byte test `filename.includes("\0")`. -/
def containsNul (s : String) : Bool :=
  s.data.any (· = Char.ofNat 0)

/-- The JS test `!filename.trim()`: the string is empty or whitespace
only. -/
def isBlank (s : String) : Bool :=
  s.data.all Char.isWhitespace

/-- Per-filename validation performed by `writeUserFiles` before resolving,
in source order; returns the error message thrown, if any. -/
def filenamePreError (filename : String) : Option String :=
  if isBlank filename then some "Invalid filename."
  else if filename.length > 256 then some "Filename is too long."
  else if isAbsoluteName filename then some "Absolute paths are not allowed."
  else if containsNul filename then some "Invalid filename."
  else none

/-- One performed write: resolved absolute path (segments) and content. -/
structure FileWrite where
  path : List String
  content : String
deriving DecidableEq, Repr

/-- Trace of one `writeUserFiles` call: the writes performed (in order)
before the first error, and the error (if one was thrown).  The JS loop
writes each validated file immediately, so files before a failing entry are
written even when the call throws. -/
structure WriteTrace where
  writes : List FileWrite
  error : Option String
deriving DecidableEq, Repr

/-- Loop body of `writeUserFiles` over the entries of `files`. -/
def writeUserFilesGo (root : List String) :
    List (String × String) → List FileWrite → WriteTrace
  | [], acc => ⟨acc, none⟩
  | (filename, source) :: rest, acc =>
    match filenamePreError filename with
    | some e => ⟨acc, some e⟩
    | none =>
      let outPath := resolveSegs root (splitSlashes filename)
      if isSubPathSegs root outPath then
        writeUserFilesGo root rest (acc ++ [⟨outPath, source⟩])
      else
        ⟨acc, some "Invalid filename (path traversal)."⟩

/-- Embedding of `writeUserFiles(rootDir, files)` from `src/judge/files.ts`:
`rootDir` is an absolute path given as raw segments (resolved first, as
`path.resolve(rootDir)` does), `files` the entries of the record in order. -/
def writeUserFiles (rootDir : List String) (files : List (String × String)) :
    WriteTrace :=
  writeUserFilesGo (normalizeSegs rootDir) files []

/-- A path strictly inside `root`: a proper extension of `root`. -/
def strictlyInside (root full : List String) : Bool :=
  full.take root.length == root && root.length < full.length

/-! ## Spec negotiation data model

Modelled from the spec: the Specification Draft fields (target language,
problem count 1–7, difficulty distribution, topic tags, problem style), the
session state machine `DRAFT → CLARIFYING → READY → GENERATING → SAVED` with
`FAILED`, commitments, and the single pending-confirmation patch.  The
implementing module `src/services/sessionService.ts` is not among the
provided sources; the behaviour is fixed by §3–§4.2 of the spec and by the
end-to-end tests. -/

inductive Language where
  | java | python | cpp | sql
deriving DecidableEq, Repr

inductive Difficulty where
  | easy | medium | hard
deriving DecidableEq, Repr

inductive Style where
  | ret | stdout | mixed
deriving DecidableEq, Repr

inductive SessionState where
  | DRAFT | CLARIFYING | READY | GENERATING | SAVED | FAILED
deriving DecidableEq, Repr

inductive NextAction where
  | ask | confirm
deriving DecidableEq, Repr

/-- One entry of a difficulty distribution. -/
structure DiffCount where
  difficulty : Difficulty
  count : ℕ
deriving DecidableEq, Repr

/-- Total problem count promised by a difficulty distribution. -/
def sumPlan : List DiffCount → ℕ
  | [] => 0
  | e :: rest => e.count + sumPlan rest

/-- Policy maximum for the problem count (the spec's bound 1–7). -/
def maxProblemCount : ℕ := 7

/-- A (possibly empty) patch over the Specification Draft; the draft itself
has the same shape, every field optional until negotiated. -/
structure SpecPatch where
  language : Option Language := none
  problem_count : Option ℕ := none
  difficulty_plan : Option (List DiffCount) := none
  topic_tags : Option (List String) := none
  problem_style : Option Style := none
deriving DecidableEq, Repr

/-- Field names of the Specification Draft. -/
inductive FieldName where
  | language | problem_count | difficulty_plan | topic_tags | problem_style
deriving DecidableEq, Repr

/-- Rendering of a field name used in `questionKey`. -/
def FieldName.key : FieldName → String
  | .language => "language"
  | .problem_count => "problem_count"
  | .difficulty_plan => "difficulty_plan"
  | .topic_tags => "topic_tags"
  | .problem_style => "problem_style"

/-- Modelled from the spec: a Thread's negotiation state — session state,
the Specification Draft, the commitments set (locked field names), the at
most one pending patch awaiting confirmation, and the last error. -/
structure Thread where
  state : SessionState
  draft : SpecPatch
  commitments : List FieldName
  pending : Option SpecPatch
  lastError : Option String
deriving DecidableEq, Repr

/-- A freshly created thread: empty draft, no commitments, no pending
patch. -/
def freshThread : Thread :=
  ⟨.DRAFT, {}, [], none, none⟩

/-- Per-turn result surfaced to the caller (`postMessage` response shape). -/
structure TurnResult where
  accepted : Bool
  state : SessionState
  done : Bool
  questionKey : Option String
  next_action : NextAction
  spec : SpecPatch
deriving DecidableEq, Repr

/-- Modelled from the spec: draft completeness — every required field
present and valid per its own rule (count within policy bounds, difficulty
distribution summing to the count, non-empty topic set). -/
def draftComplete (d : SpecPatch) : Bool :=
  d.language.isSome &&
  (match d.problem_count with
   | some n => decide (1 ≤ n) && decide (n ≤ maxProblemCount)
   | none => false) &&
  (match d.problem_count, d.difficulty_plan with
   | some n, some p => sumPlan p == n
   | _, _ => false) &&
  (match d.topic_tags with
   | some ts => !ts.isEmpty
   | none => false) &&
  d.problem_style.isSome

/-- Fixed priority order for the next missing field (spec §4.2 step 6:
deterministic, not model-chosen). -/
def nextMissingField (d : SpecPatch) : Option FieldName :=
  if d.language.isNone then some .language
  else if (match d.problem_count with
           | some n => decide (1 ≤ n) && decide (n ≤ maxProblemCount)
           | none => false) = false then some .problem_count
  else if (match d.problem_count, d.difficulty_plan with
           | some n, some p => sumPlan p == n
           | _, _ => false) = false then some .difficulty_plan
  else if (match d.topic_tags with
           | some ts => !ts.isEmpty
           | none => false) = false then some .topic_tags
  else if d.problem_style.isNone then some .problem_style
  else none

/-- Modelled from the spec: rescaling a difficulty distribution to a target
total, deterministically — each tier keeps as much of its count as still
fits.  The result sums to `min (sumPlan p) target`, so to `target` whenever
the original total was at least the target (the clamping case). -/
def rescalePlanGo (target : ℕ) : List DiffCount → List DiffCount
  | [] => []
  | e :: rest =>
    ⟨e.difficulty, min e.count target⟩ :: rescalePlanGo (target - min e.count target) rest

/-- Rescale a difficulty distribution so it sums to (at most) `target`. -/
def rescalePlan (p : List DiffCount) (target : ℕ) : List DiffCount :=
  rescalePlanGo target p

/-- Modelled from the spec (§4.2 edge-case policy): a problem count above
the policy maximum does not error.  With accompanying difficulty
information the count is clamped to the maximum and the distribution
rescaled to match; without difficulty information the count (and any
dangling distribution) is deferred instead of applied. -/
def clampPatch (difficultyInfo : Bool) (p : SpecPatch) : SpecPatch :=
  match p.problem_count with
  | some n =>
    if maxProblemCount < n then
      if difficultyInfo then
        { p with
          problem_count := some maxProblemCount,
          difficulty_plan :=
            some (rescalePlan (p.difficulty_plan.getD []) maxProblemCount) }
      else
        { p with problem_count := none, difficulty_plan := none }
    else p
  | none => p

/-- Outcome of applying the hard-field gate to one field:  the value now
stored, whether the field became committed this turn, and the gated
proposal (to become pending) if confirmation is required.  Modelled from
the spec (§4.2 step 4) and the confirmation-gate scenario: a hard value is
applied only when the user's own message evidences it (which commits it) or
when it matches the already-committed value; any other proposal is gated
behind confirmation. -/
def hardFieldStep {α : Type} [DecidableEq α] (committed : Bool)
    (current evVal propVal : Option α) : Option α × Bool × Option α :=
  match evVal with
  | some v => (some v, true, none)
  | none =>
    match propVal with
    | some v =>
      if committed then
        if current = some v then (current, false, none) else (current, false, some v)
      else (current, false, some v)
    | none => (current, false, none)

/-- A problem count valid per the field's own rule (after clamping). -/
def validCount (c : Option ℕ) : Option ℕ :=
  match c with
  | some n => if 1 ≤ n ∧ n ≤ maxProblemCount then some n else none
  | none => none

/-- A difficulty distribution valid against the count it must sum to;
dropped (not gated) when no count is available or the sum mismatches. -/
def validPlan (c : Option ℕ) (p : Option (List DiffCount)) :
    Option (List DiffCount) :=
  match c, p with
  | some n, some dp => if sumPlan dp = n then some dp else none
  | _, _ => none

/-- Modelled from the spec: the per-turn algorithm of the Spec Negotiation
State Machine (§4.2), on already-normalised inputs.
`affirmative` is the deterministic yes/no reading of the user message,
`evidence` the patch deterministically parsed from the user's own message
(step 1), `proposal` the advisory patch returned by the Completion Gateway
(step 2).  Invalid sub-fields are dropped (step 3), hard fields pass the
commitment/confirmation gate (step 4), soft fields apply immediately
(step 5), and completeness selects READY or the next question (step 6). -/
def processTurn (t : Thread) (affirmative : Bool)
    (evidence proposal : SpecPatch) : Thread × TurnResult :=
  -- Resolve any pending confirmation first: affirmative applies the pending
  -- patch (committing its fields); anything else discards it.
  let draft0 : SpecPatch :=
    match t.pending with
    | some p =>
      if affirmative then
        { language := p.language <|> t.draft.language
          problem_count := p.problem_count <|> t.draft.problem_count
          difficulty_plan := p.difficulty_plan <|> t.draft.difficulty_plan
          topic_tags := p.topic_tags <|> t.draft.topic_tags
          problem_style := p.problem_style <|> t.draft.problem_style }
      else t.draft
    | none => t.draft
  let commitments0 : List FieldName :=
    match t.pending with
    | some p =>
      if affirmative then
        t.commitments ++
          (if p.language.isSome then [FieldName.language] else []) ++
          (if p.problem_count.isSome then [FieldName.problem_count] else []) ++
          (if p.difficulty_plan.isSome then [FieldName.difficulty_plan] else [])
      else t.commitments
    | none => t.commitments
  -- Deterministic clamping of an out-of-range problem count (edge-case
  -- policy): difficulty information counts only when the user's own message
  -- carries it.
  let difficultyInfo := evidence.difficulty_plan.isSome
  let ev := clampPatch difficultyInfo evidence
  let prop := clampPatch difficultyInfo proposal
  -- Hard field: problem count (validated, then gated).
  let cStep := hardFieldStep (t.commitments.contains FieldName.problem_count)
    draft0.problem_count (validCount ev.problem_count) (validCount prop.problem_count)
  let newCount := cStep.1
  -- Hard field: language.
  let lStep := hardFieldStep (t.commitments.contains FieldName.language)
    draft0.language ev.language prop.language
  -- Hard field: difficulty distribution (validated against the new count).
  let dStep := hardFieldStep (t.commitments.contains FieldName.difficulty_plan)
    draft0.difficulty_plan (validPlan newCount ev.difficulty_plan)
    (validPlan newCount prop.difficulty_plan)
  -- Soft fields apply immediately, user evidence first.
  let newTopics :=
    match ev.topic_tags <|> prop.topic_tags with
    | some ts => if ts.isEmpty then draft0.topic_tags else some ts
    | none => draft0.topic_tags
  let newStyle := (ev.problem_style <|> prop.problem_style) <|> draft0.problem_style
  let draft1 : SpecPatch :=
    { language := lStep.1, problem_count := newCount,
      difficulty_plan := dStep.1, topic_tags := newTopics, problem_style := newStyle }
  let commitments1 := commitments0 ++
    (if lStep.2.1 then [FieldName.language] else []) ++
    (if cStep.2.1 then [FieldName.problem_count] else []) ++
    (if dStep.2.1 then [FieldName.difficulty_plan] else [])
  -- A single pending patch collects every gated hard-field proposal.
  let gatedPatch : SpecPatch :=
    { language := lStep.2.2, problem_count := cStep.2.2,
      difficulty_plan := dStep.2.2, topic_tags := none, problem_style := none }
  let firstGated : Option FieldName :=
    if lStep.2.2.isSome then some .language
    else if cStep.2.2.isSome then some .problem_count
    else if dStep.2.2.isSome then some .difficulty_plan
    else none
  match firstGated with
  | some f =>
    (⟨.CLARIFYING, draft1, commitments1, some gatedPatch, none⟩,
     ⟨true, .CLARIFYING, false, some ("confirm:" ++ f.key), .confirm, draft1⟩)
  | none =>
    if draftComplete draft1 then
      (⟨.READY, draft1, commitments1, none, none⟩,
       ⟨true, .READY, true, none, .ask, draft1⟩)
    else
      (⟨.CLARIFYING, draft1, commitments1, none, none⟩,
       ⟨true, .CLARIFYING, false,
        (nextMissingField draft1).map FieldName.key, .ask, draft1⟩)

/-! ## Deterministic shorthand parsing

Modelled from the spec (§4.2 step 1): low-entropy shorthand in the user
message is normalised deterministically, without calling the Completion
Gateway.  The reading below reproduces the shorthands the end-to-end tests
exercise ("Create N easy problems in Python with return style.
Topics: strings"). -/

/-- Word-splitting worker: alphanumeric characters are lower-cased, every
other character acts as a separator, empty words are dropped. -/
def wordsAux : List Char → List Char → List String
  | [], cur => if cur.isEmpty then [] else [String.mk cur.reverse]
  | c :: rest, cur =>
    if c.isAlphanum then wordsAux rest (c.toLower :: cur)
    else if cur.isEmpty then wordsAux rest []
    else String.mk cur.reverse :: wordsAux rest []

/-- Lower-cased alphanumeric words of a message. -/
def wordsOf (msg : String) : List String :=
  wordsAux msg.data []

/-- Decimal reading of a digit list. -/
def digitsToNat : List Char → ℕ → Option ℕ
  | [], acc => some acc
  | c :: rest, acc =>
    if c.isDigit then digitsToNat rest (acc * 10 + (c.toNat - 48))
    else none

/-- A word read as a number, when it is all digits. -/
def wordToNat (w : String) : Option ℕ :=
  match w.data with
  | [] => none
  | l => digitsToNat l 0

/-- First numeric word, read as the requested problem count. -/
def firstNat : List String → Option ℕ
  | [] => none
  | w :: rest =>
    match wordToNat w with
    | some n => some n
    | none => firstNat rest

/-- First language word. -/
def firstLanguage : List String → Option Language
  | [] => none
  | w :: rest =>
    if w = "java" then some .java
    else if w = "python" then some .python
    else if w = "cpp" ∨ w = "c" then some .cpp
    else if w = "sql" then some .sql
    else firstLanguage rest

/-- First difficulty word. -/
def firstDifficulty : List String → Option Difficulty
  | [] => none
  | w :: rest =>
    if w = "easy" then some .easy
    else if w = "medium" then some .medium
    else if w = "hard" then some .hard
    else firstDifficulty rest

/-- First style word. -/
def firstStyle : List String → Option Style
  | [] => none
  | w :: rest =>
    if w = "return" then some .ret
    else if w = "stdout" then some .stdout
    else if w = "mixed" then some .mixed
    else firstStyle rest

/-- The words following a "topics" marker, read as topic tags. -/
def topicsAfter : List String → Option (List String)
  | [] => none
  | w :: rest =>
    if w = "topics" ∨ w = "topic" then
      if rest.isEmpty then none else some rest
    else topicsAfter rest

/-- Modelled from the spec: the deterministic patch parsed from a user
message; the "N easy" shorthand maps to a single-tier difficulty
distribution. -/
def parsedPatch (msg : String) : SpecPatch :=
  let ws := wordsOf msg
  let count := firstNat ws
  { language := firstLanguage ws
    problem_count := count
    difficulty_plan :=
      match firstDifficulty ws, count with
      | some d, some n => some [⟨d, n⟩]
      | _, _ => none
    topic_tags := topicsAfter ws
    problem_style := firstStyle ws }

/-- A message read as an affirmative confirmation. -/
def isAffirmative (msg : String) : Bool :=
  (wordsOf msg).any fun w =>
    w = "yes" ∨ w = "yeah" ∨ w = "yep" ∨ w = "ok" ∨ w = "okay" ∨
    w = "sure" ∨ w = "confirm" ∨ w = "y"

/-- Modelled from the spec: `processSessionMessage` — one chat turn.  The
advisory `proposal` stands for the Completion Gateway's parsed response,
which external code supplies (the end-to-end tests stub it). -/
def processSessionMessage (t : Thread) (msg : String) (proposal : SpecPatch) :
    Thread × TurnResult :=
  processTurn t (isAffirmative msg) (parsedPatch msg) proposal

/-! ## Planner and slot generation pipeline

Modelled from the spec (§4.3–§4.4, §4.6): the planner deterministically
expands a frozen specification into slots in ascending difficulty order
with topics cycled, and fails only when the distribution does not sum to
the requested count; each slot retries drafting up to 3 attempts counted
jointly across contract and sandbox failures; persistence is all-or-nothing
and strips reference material. -/

/-- A frozen, fully-specified generation request. -/
structure ActivitySpec where
  language : Language
  problem_count : ℕ
  difficulty_plan : List DiffCount
  topic_tags : List String
  problem_style : Style
deriving DecidableEq, Repr

/-- Freeze a complete draft into an `ActivitySpec`. -/
def freezeDraft (d : SpecPatch) : Option ActivitySpec :=
  match d.language, d.problem_count, d.difficulty_plan, d.topic_tags,
      d.problem_style with
  | some l, some n, some p, some ts, some st => some ⟨l, n, p, ts, st⟩
  | _, _, _, _, _ => none

/-- Modelled from the spec: full-spec validation by the Contract Validator —
count within policy bounds, difficulty distribution summing exactly to the
declared problem count, non-empty topic set. -/
def validateActivitySpec (s : ActivitySpec) : Bool :=
  decide (1 ≤ s.problem_count) && decide (s.problem_count ≤ maxProblemCount) &&
  (sumPlan s.difficulty_plan == s.problem_count) && !s.topic_tags.isEmpty

/-- One planned Generation Slot. -/
structure Slot where
  index : ℕ
  difficulty : Difficulty
  topic : String
  language : Language
  style : Style
deriving DecidableEq, Repr

/-- Units of a given difficulty tier in a distribution. -/
def countFor (p : List DiffCount) (d : Difficulty) : ℕ :=
  ((p.filter (·.difficulty = d)).map (·.count)).sum

/-- Modelled from the spec: deterministic slot expansion — one slot per unit
count in ascending difficulty order, topics cycled across slots. -/
def expandSpec (s : ActivitySpec) : List Slot :=
  let diffs :=
    List.replicate (countFor s.difficulty_plan .easy) Difficulty.easy ++
    List.replicate (countFor s.difficulty_plan .medium) Difficulty.medium ++
    List.replicate (countFor s.difficulty_plan .hard) Difficulty.hard
  diffs.enum.map fun e =>
    ⟨e.1, e.2, s.topic_tags.getD (e.1 % s.topic_tags.length) "",
     s.language, s.problem_style⟩

/-- Modelled from the spec: `plan(spec)` — fails only if the distribution
does not sum to the requested count (a programmer-error condition). -/
def planSlots (s : ActivitySpec) : Except String (List Slot) :=
  if sumPlan s.difficulty_plan ≠ s.problem_count then
    Except.error "difficulty plan does not sum to problem count"
  else Except.ok (expandSpec s)

/-- An untrusted Problem Draft, as the JSON object the generator returns:
an association list from field name to content (mirroring the JS `in`
operator used by the tests to probe for reference fields). -/
abbrev DraftObj := List (String × String)

/-- Required draft fields per the Contract Validator. -/
def requiredDraftKeys : List String :=
  ["id", "title", "description", "starter_code", "reference_solution",
   "test_suite", "constraints", "difficulty", "topic_tag"]

/-- Modelled from the spec: `validateProblemDraft` structural completeness —
all required fields present and non-empty. -/
def validateProblemDraft (d : DraftObj) : Bool :=
  requiredDraftKeys.all fun k =>
    match d.lookup k with
    | some v => v ≠ ""
    | none => false

/-- Modelled from the spec: reference stripping before persistence — the
reference-solution and reference-workspace fields are removed. -/
def sanitizeDraft (d : DraftObj) : DraftObj :=
  d.filter fun kv => kv.1 != "reference_solution" && kv.1 != "reference_workspace"

/-- One drafting attempt's outcome at the Completion Gateway: a provider
error, or a raw draft (which the pipeline then contract-checks and
sandbox-checks). -/
inductive DraftAttempt where
  | provErr : DraftAttempt
  | draft : DraftObj → DraftAttempt

/-- Terminal state of one slot: `done` with the verified draft and the
number of attempts used, or `failed` after retry exhaustion. -/
inductive SlotResult where
  | done : DraftObj → ℕ → SlotResult
  | failed : ℕ → SlotResult
deriving DecidableEq, Repr

/-- Whether a slot ended `failed`. -/
def SlotResult.isFailed : SlotResult → Bool
  | .failed _ => true
  | _ => false

/-- Policy attempt ceiling: 3 attempts per slot across drafting, contract
check and sandbox check. -/
def maxSlotAttempts : ℕ := 3

/-- Modelled from the spec (§4.4): the per-slot retry loop.  Each attempt
drafts, contract-checks, then sandbox-checks; any failure retries from
drafting; the fuel is the attempt ceiling, counted jointly across phases.
`a` is the number of attempts already consumed. -/
def runSlotAux (draftOf : ℕ → DraftAttempt) (sandbox : DraftObj → Bool) :
    ℕ → ℕ → SlotResult
  | a, 0 => .failed a
  | a, fuel + 1 =>
    match draftOf a with
    | .provErr => runSlotAux draftOf sandbox (a + 1) fuel
    | .draft d =>
      if validateProblemDraft d then
        if sandbox d then .done d (a + 1)
        else runSlotAux draftOf sandbox (a + 1) fuel
      else runSlotAux draftOf sandbox (a + 1) fuel

/-- Run one slot from a fresh state with the policy attempt ceiling. -/
def runSlot (draftOf : ℕ → DraftAttempt) (sandbox : DraftObj → Bool) :
    SlotResult :=
  runSlotAux draftOf sandbox 0 maxSlotAttempts

/-- The persisted, learner-facing Activity record. -/
structure Activity where
  title : String
  problems : List DraftObj
  status : String
deriving DecidableEq, Repr

/-- Outcome of one generation run: the per-slot results, the persisted
activity (if any), the final thread state, and the recorded error. -/
structure GenOutcome where
  slotResults : List SlotResult
  activity : Option Activity
  state : SessionState
  lastError : Option String
deriving DecidableEq, Repr

/-- The verified drafts of a run, available only when every slot is done. -/
def collectDoneDrafts : List SlotResult → Option (List DraftObj)
  | [] => some []
  | .done d _ :: rest => (collectDoneDrafts rest).map (d :: ·)
  | .failed _ :: _ => none

/-- The Persistence Boundary step of a run: persist exactly one sanitised
Activity when every slot is done, otherwise record failure without
persisting anything. -/
def finalizeRun (rs : List SlotResult) : GenOutcome :=
  match collectDoneDrafts rs with
  | some ds =>
    ⟨rs, some ⟨"Generated Activity", ds.map sanitizeDraft, "DRAFT"⟩, .SAVED, none⟩
  | none => ⟨rs, none, .FAILED, some "A slot failed after retry exhaustion."⟩

/-- Modelled from the spec: `generateFromSession` — the generation trigger.
Requires state `READY`, freezes the draft, plans slots, runs each slot, and
persists exactly one Activity (problems sanitised of reference material)
only when every slot succeeded; otherwise no activity is persisted and the
thread ends `FAILED` with a recorded error.  `draftOracle i a` is the raw
Completion Gateway output for slot `i`, attempt `a`; `sandbox` the Sandbox
Executor verdict on a draft's reference solution. -/
def generateFromSession (t : Thread) (draftOracle : ℕ → ℕ → DraftAttempt)
    (sandbox : DraftObj → Bool) : GenOutcome :=
  if t.state = .READY then
    match freezeDraft t.draft with
    | none => ⟨[], none, .FAILED, some "Spec is incomplete."⟩
    | some spec =>
      match planSlots spec with
      | .error e => ⟨[], none, .FAILED, some e⟩
      | .ok slots =>
        finalizeRun ((List.range slots.length).map fun i =>
          runSlot (draftOracle i) sandbox)
  else ⟨[], none, .FAILED, some "Session is not READY."⟩

/-! ## Progress bus

Modelled from the spec (§4.5) and the `threads.subscribeGeneration`
handler in `ipc-server.js` (which returns the buffered events to a new
subscriber before live events are delivered): an in-memory per-run channel
whose events are ordered and appended to a bounded buffer truncating oldest
entries first, replayable to late subscribers. -/

/-- The per-run progress channel: capacity, replay buffer, and the attached
subscribers with everything each has received. -/
structure Bus (α : Type) where
  cap : ℕ
  buffer : List α
  subs : List (ℕ × List α)
deriving Repr

/-- Keep only the newest `cap` entries, dropping oldest first. -/
def truncateOldest {α : Type} (cap : ℕ) (l : List α) : List α :=
  l.drop (l.length - cap)

/-- Emit one event: append to the (truncated) buffer and deliver to every
attached subscriber. -/
def busEmit {α : Type} (b : Bus α) (e : α) : Bus α :=
  { b with
    buffer := truncateOldest b.cap (b.buffer ++ [e])
    subs := b.subs.map fun s => (s.1, s.2 ++ [e]) }

/-- Attach a subscriber: it immediately receives the buffered events. -/
def busSubscribe {α : Type} (b : Bus α) (id : ℕ) : Bus α :=
  { b with subs := b.subs ++ [(id, b.buffer)] }

/-- Emit a list of events in order. -/
def busEmitAll {α : Type} (b : Bus α) (es : List α) : Bus α :=
  es.foldl busEmit b

/-- A fresh bus for one run. -/
def busInit (α : Type) (cap : ℕ) : Bus α :=
  ⟨cap, [], []⟩

/-- Everything a subscriber has received so far. -/
def subReceived {α : Type} (b : Bus α) (id : ℕ) : Option (List α) :=
  b.subs.lookup id

/-! ## Concrete scenario inputs used by witnesses -/

/-- The happy-path message of the spec scenario and the python e2e test. -/
def happyMsg : String :=
  "Create 4 easy problems in Python with return style. Topics: strings"

/-- A well-formed python draft for slot `i`, as the e2e stub returns. -/
def pyHappyDraft (i : ℕ) : DraftObj :=
  [("id", "py-e2e-" ++ toString i), ("title", "Len " ++ toString i),
   ("description", "Return len(s)."),
   ("starter_code", "def solve(s): raise NotImplementedError"),
   ("reference_solution", "def solve(s): return len(s)"),
   ("test_suite", "from solution import solve"),
   ("constraints", "Python 3.11, pytest"),
   ("difficulty", "easy"), ("topic_tag", "strings")]

/-- Drafting oracle that returns a valid draft on every attempt. -/
def happyOracle : ℕ → ℕ → DraftAttempt :=
  fun i _ => .draft (pyHappyDraft i)

/-- Sandbox stub that accepts every reference solution. -/
def alwaysPass : DraftObj → Bool := fun _ => true

/-- A draft missing almost every required field (contract-invalid). -/
def badDraft : DraftObj := [("id", "x")]

/-- Drafting oracle whose output is contract-invalid on every attempt. -/
def badOracle : ℕ → DraftAttempt := fun _ => .draft badDraft

/-- A READY thread holding the frozen happy-path specification. -/
def readyThread : Thread :=
  ⟨.READY,
   { language := some .python, problem_count := some 4,
     difficulty_plan := some [⟨.easy, 4⟩], topic_tags := some ["strings"],
     problem_style := some .ret },
   [.language, .problem_count, .difficulty_plan], none, none⟩

/-- A validator-accepted specification used as witness input. -/
def specEx : ActivitySpec :=
  ⟨.python, 4, [⟨.easy, 4⟩], ["strings"], .ret⟩

/-- Example root directory for the file-writing witnesses. -/
def rootEx : List String := ["tmp", "codemm"]

/-! ## Helper lemmas -/

/-- Rescaling yields the smaller of the original total and the target. -/
theorem sumPlan_rescaleGo (p : List DiffCount) :
    ∀ t, sumPlan (rescalePlanGo t p) = min (sumPlan p) t := by
  induction p with
  | nil => intro t; simp [rescalePlanGo, sumPlan]
  | cons e rest ih =>
    intro t
    simp only [rescalePlanGo, sumPlan, ih]
    omega

/-- Rescaling a distribution that covers the target makes it sum to the
target exactly. -/
theorem sumPlan_rescale (p : List DiffCount) (t : ℕ) (h : t ≤ sumPlan p) :
    sumPlan (rescalePlan p t) = t := by
  rw [rescalePlan, sumPlan_rescaleGo]
  omega

/-- Stripping removes the reference fields from a draft object. -/
theorem lookup_sanitizeDraft (d : DraftObj) :
    (sanitizeDraft d).lookup "reference_solution" = none ∧
    (sanitizeDraft d).lookup "reference_workspace" = none := by
  induction d with
  | nil => simp [sanitizeDraft]
  | cons kv tl ih =>
    obtain ⟨k, v⟩ := kv
    by_cases h1 : k = "reference_solution"
    · simpa [sanitizeDraft, List.filter_cons, h1] using ih
    · by_cases h2 : k = "reference_workspace"
      · simpa [sanitizeDraft, List.filter_cons, h2] using ih
      · have e1 : ("reference_solution" == k) = false := by
          simp [beq_iff_eq]; exact fun h => h1 h.symm
        have e2 : ("reference_workspace" == k) = false := by
          simp [beq_iff_eq]; exact fun h => h2 h.symm
        have hkeep : (k != "reference_solution" && k != "reference_workspace") = true := by
          simp [h1, h2]
        simp only [sanitizeDraft, List.filter_cons, hkeep, if_true, List.lookup, e1, e2]
        simpa [sanitizeDraft] using ih

/-- A failed slot in a run means the verified drafts cannot be collected. -/
theorem collectDoneDrafts_eq_none (rs : List SlotResult) (r : SlotResult)
    (hr : r ∈ rs) (hf : r.isFailed = true) : collectDoneDrafts rs = none := by
  induction rs with
  | nil => cases hr
  | cons x tl ih =>
    cases hr with
    | head =>
      cases r with
      | done d n => simp [SlotResult.isFailed] at hf
      | failed n => simp [collectDoneDrafts]
    | tail _ h =>
      cases x with
      | done d n => simp [collectDoneDrafts, ih h]
      | failed n => simp [collectDoneDrafts]

/-- `finalizeRun` reports the slot results unchanged. -/
theorem finalizeRun_slotResults (rs : List SlotResult) :
    (finalizeRun rs).slotResults = rs := by
  unfold finalizeRun
  cases collectDoneDrafts rs <;> rfl

/-- Every generation run either goes through the Persistence Boundary step
or short-circuits with no slot results, no activity, and a recorded
error. -/
theorem generateFromSession_shape (t : Thread)
    (draftOracle : ℕ → ℕ → DraftAttempt) (sandbox : DraftObj → Bool) :
    (∃ rs, generateFromSession t draftOracle sandbox = finalizeRun rs) ∨
    ((generateFromSession t draftOracle sandbox).slotResults = [] ∧
     (generateFromSession t draftOracle sandbox).activity = none ∧
     (generateFromSession t draftOracle sandbox).state = .FAILED ∧
     ((generateFromSession t draftOracle sandbox).lastError).isSome = true) := by
  unfold generateFromSession
  split
  · split
    · right; simp
    · split
      · right; simp
      · left; exact ⟨_, rfl⟩
  · right; simp

/-- Looking up in an association list after appending an event to every
entry's payload. -/
theorem lookup_map_append {α : Type} (id : ℕ) (l : List (ℕ × List α)) (e : α) :
    (l.map fun s => (s.1, s.2 ++ [e])).lookup id = (l.lookup id).map (· ++ [e]) := by
  induction l with
  | nil => rfl
  | cons x tl ih =>
    obtain ⟨k, v⟩ := x
    cases hx : id == k <;> simp [List.lookup, hx, ih]

/-- Emission delivers every event, in order, to an attached subscriber. -/
theorem subReceived_emitAll {α : Type} (es : List α) (b : Bus α) (id : ℕ)
    (r : List α) (h : subReceived b id = some r) :
    subReceived (busEmitAll b es) id = some (r ++ es) := by
  induction es generalizing b r with
  | nil => simpa using h
  | cons e tl ih =>
    have h1 : subReceived (busEmit b e) id = some (r ++ [e]) := by
      simp [subReceived, busEmit, lookup_map_append] at h ⊢
      simp [h]
    have h2 := ih (busEmit b e) (r ++ [e]) h1
    simpa [busEmitAll, List.append_assoc] using h2

/-- Emission does not change the buffer capacity. -/
theorem busEmitAll_cap {α : Type} (es : List α) (b : Bus α) :
    (busEmitAll b es).cap = b.cap := by
  induction es generalizing b with
  | nil => rfl
  | cons e tl ih => simpa [busEmitAll] using ih (busEmit b e)

/-- Emission does not create subscribers. -/
theorem busEmitAll_subs_nil {α : Type} (es : List α) (b : Bus α)
    (h : b.subs = []) : (busEmitAll b es).subs = [] := by
  induction es generalizing b with
  | nil => simpa using h
  | cons e tl ih =>
    have : (busEmit b e).subs = [] := by simp [busEmit, h]
    simpa [busEmitAll] using ih (busEmit b e) this

/-- While the buffer stays within capacity, emission is plain append. -/
theorem busEmitAll_buffer_of_le {α : Type} (es : List α) (b : Bus α)
    (h : b.buffer.length + es.length ≤ b.cap) :
    (busEmitAll b es).buffer = b.buffer ++ es := by
  induction es generalizing b with
  | nil => simp [busEmitAll]
  | cons e tl ih =>
    have hb : (busEmit b e).buffer = b.buffer ++ [e] := by
      have hz : b.buffer.length + 1 - b.cap = 0 := by
        simp at h
        omega
      simp [busEmit, truncateOldest, hz]
    have hlen : (busEmit b e).buffer.length + tl.length ≤ (busEmit b e).cap := by
      rw [hb]
      simp only [List.length_append, List.length_cons, List.length_nil]
      simp at h
      simp [busEmit]
      omega
    have h2 := ih (busEmit b e) hlen
    rw [hb] at h2
    simpa [busEmitAll, List.append_assoc] using h2

/-- The buffer never exceeds its capacity. -/
theorem busEmitAll_buffer_le {α : Type} (gs : List α) (b : Bus α)
    (h : b.buffer.length ≤ b.cap) :
    (busEmitAll b gs).buffer.length ≤ b.cap := by
  induction gs generalizing b with
  | nil => simpa using h
  | cons g tl ih =>
    have hlen : (busEmit b g).buffer.length ≤ (busEmit b g).cap := by
      simp [busEmit, truncateOldest, List.length_drop]
      omega
    have h2 := ih (busEmit b g) hlen
    simpa [busEmitAll, busEmit] using h2

/-- The buffer is always a suffix of the events emitted so far: entries are
truncated oldest first. -/
theorem busEmitAll_buffer_suffix {α : Type} (gs : List α) (b : Bus α) :
    ∃ k, (busEmitAll b gs).buffer = (b.buffer ++ gs).drop k := by
  induction gs generalizing b with
  | nil => exact ⟨0, by simp [busEmitAll]⟩
  | cons g tl ih =>
    obtain ⟨k, hk⟩ := ih (busEmit b g)
    have hm : (busEmit b g).buffer = (b.buffer ++ [g]).drop (b.buffer.length + 1 - b.cap) := by
      simp [busEmit, truncateOldest]
    have hle : b.buffer.length + 1 - b.cap ≤ (b.buffer ++ [g]).length := by
      simp only [List.length_append, List.length_cons, List.length_nil]
      omega
    refine ⟨(b.buffer.length + 1 - b.cap) + k, ?_⟩
    rw [show busEmitAll b (g :: tl) = busEmitAll (busEmit b g) tl from rfl, hk, hm,
      ← List.drop_append_of_le_length hle, List.drop_drop]
    have : b.buffer ++ [g] ++ tl = b.buffer ++ g :: tl := by
      rw [List.append_assoc, List.singleton_append]
    rw [this]

/-- Characterisation of a filename passing the pre-resolution checks. -/
theorem filenamePreError_none_iff (fname : String) :
    filenamePreError fname = none ↔
      (isBlank fname = false ∧ ¬ 256 < fname.length ∧
       isAbsoluteName fname = false ∧ containsNul fname = false) := by
  unfold filenamePreError
  by_cases a : isBlank fname = true <;>
    by_cases b : 256 < fname.length <;>
      by_cases c : isAbsoluteName fname = true <;>
        by_cases d : containsNul fname = true <;>
          simp [a, b, c, d]

/-- Every write recorded by the loop body lands at or under the root,
provided the already-recorded writes do. -/
theorem writeUserFilesGo_inside (root : List String) :
    ∀ (files : List (String × String)) (acc : List FileWrite),
      (∀ w ∈ acc, isSubPathSegs root w.path = true) →
      ∀ w ∈ (writeUserFilesGo root files acc).writes,
        isSubPathSegs root w.path = true := by
  intro files
  induction files with
  | nil =>
    intro acc hacc w hw
    exact hacc w hw
  | cons fe rest ih =>
    intro acc hacc w hw
    obtain ⟨filename, source⟩ := fe
    unfold writeUserFilesGo at hw
    cases hpe : filenamePreError filename with
    | some e =>
      rw [hpe] at hw
      exact hacc w hw
    | none =>
      rw [hpe] at hw
      simp only at hw
      by_cases hs : isSubPathSegs root (resolveSegs root (splitSlashes filename)) = true
      · rw [if_pos hs] at hw
        refine ih (acc ++ [⟨resolveSegs root (splitSlashes filename), source⟩]) ?_ w hw
        intro w' hw'
        rcases List.mem_append.mp hw' with hmem | hmem
        · exact hacc w' hmem
        · have hw'' : w' = ⟨resolveSegs root (splitSlashes filename), source⟩ := by
            simpa using hmem
          rw [hw'']
          exact hs
      · rw [if_neg hs] at hw
        exact hacc w hw

/-! ## Claim theorems -/

/-- C1: for every persisted Activity, under any successful generation path,
no problem object stored in the activity record contains a
reference-solution or reference-workspace field: reference material is
stripped before persistence, in both the returned and the stored problem
list (which coincide at the Persistence Boundary). -/
theorem persisted_activity_has_no_reference_fields (t : Thread)
    (draftOracle : ℕ → ℕ → DraftAttempt) (sandbox : DraftObj → Bool)
    (a : Activity)
    (h : (generateFromSession t draftOracle sandbox).activity = some a) :
    ∀ p ∈ a.problems,
      p.lookup "reference_solution" = none ∧
      p.lookup "reference_workspace" = none := by
  rcases generateFromSession_shape t draftOracle sandbox with ⟨rs, heq⟩ | ⟨_, hact, _, _⟩
  · rw [heq] at h
    unfold finalizeRun at h
    cases hc : collectDoneDrafts rs with
    | none => rw [hc] at h; cases h
    | some ds =>
      rw [hc] at h
      have ha : a = ⟨"Generated Activity", ds.map sanitizeDraft, "DRAFT"⟩ :=
        (Option.some.inj h).symm
      subst ha
      intro p hp
      obtain ⟨d, _, rfl⟩ := List.mem_map.mp hp
      exact lookup_sanitizeDraft d
  · rw [hact] at h; cases h

/-- C1 witness: the happy-path python run persists problems without
reference fields. -/
theorem persisted_activity_has_no_reference_fields_witness :
    (sanitizeDraft (pyHappyDraft 0)).lookup "reference_solution" = none ∧
    (sanitizeDraft (pyHappyDraft 0)).lookup "reference_workspace" = none :=
  persisted_activity_has_no_reference_fields readyThread happyOracle alwaysPass
    ⟨"Generated Activity", (List.range 4).map fun i => sanitizeDraft (pyHappyDraft i),
     "DRAFT"⟩
    (by decide) (sanitizeDraft (pyHappyDraft 0)) (by decide)

/-- C2: if any one slot of a generation run ends FAILED, no Activity record
is created for that run; the outcome is FAILED with a recorded error —
persistence is all-or-nothing across the run's slots. -/
theorem failed_slot_blocks_persistence (t : Thread)
    (draftOracle : ℕ → ℕ → DraftAttempt) (sandbox : DraftObj → Bool)
    (h : ∃ r ∈ (generateFromSession t draftOracle sandbox).slotResults,
      r.isFailed = true) :
    (generateFromSession t draftOracle sandbox).activity = none ∧
    (generateFromSession t draftOracle sandbox).state = .FAILED ∧
    ((generateFromSession t draftOracle sandbox).lastError).isSome = true := by
  rcases generateFromSession_shape t draftOracle sandbox with ⟨rs, heq⟩ | ⟨_, hact, hst, herr⟩
  · rw [heq] at h ⊢
    obtain ⟨r, hr, hfl⟩ := h
    rw [finalizeRun_slotResults] at hr
    have hnone := collectDoneDrafts_eq_none rs r hr hfl
    unfold finalizeRun
    rw [hnone]
    exact ⟨rfl, rfl, rfl⟩
  · exact ⟨hact, hst, herr⟩

/-- C2 witness: a run whose third slot always drafts invalid output
persists nothing and fails. -/
theorem failed_slot_blocks_persistence_witness :
    (generateFromSession readyThread (fun _ _ => .draft badDraft) alwaysPass).activity
      = none ∧
    (generateFromSession readyThread (fun _ _ => .draft badDraft) alwaysPass).state
      = .FAILED ∧
    ((generateFromSession readyThread (fun _ _ => .draft badDraft) alwaysPass).lastError).isSome
      = true :=
  failed_slot_blocks_persistence readyThread (fun _ _ => .draft badDraft) alwaysPass
    ⟨.failed 3, by decide, rfl⟩

/-- C3: for a chat turn on a fresh thread requesting a problem count above
the policy maximum 7 — with the user message evidencing language, topics
and style, and any advisory proposal carrying the same count:  when user
difficulty information accompanies the request (a difficulty distribution
summing to the requested count), the turn does not error and produces a
READY spec whose problem count is 7 with the difficulty distribution
rescaled to sum to 7; without difficulty information no clamping occurs,
the spec stays incomplete with no problem count, and problem count is
surfaced as the next question (questionKey `problem_count`, state
CLARIFYING). -/
theorem problem_count_clamping_policy (L : Language) (n : ℕ)
    (dp : List DiffCount) (ts : List String) (st : Style) (prop : SpecPatch)
    (hn : maxProblemCount < n) (hsum : sumPlan dp = n)
    (hts : ts.isEmpty = false) (hp : prop.problem_count = some n) :
    ((processTurn freshThread false ⟨some L, some n, some dp, some ts, some st⟩ prop).2 =
        ⟨true, .READY, true, none, .ask,
         ⟨some L, some maxProblemCount, some (rescalePlan dp maxProblemCount),
          some ts, some st⟩⟩ ∧
      sumPlan (rescalePlan dp maxProblemCount) = maxProblemCount) ∧
    (processTurn freshThread false ⟨some L, some n, none, some ts, some st⟩ prop).2 =
      ⟨true, .CLARIFYING, false, some "problem_count", .ask,
       ⟨some L, none, none, some ts, some st⟩⟩ := by
  have hn7 : (7 : ℕ) < n := hn
  have hres7 : sumPlan (rescalePlan dp 7) = 7 := by
    apply sumPlan_rescale
    omega
  refine ⟨⟨?_, hres7⟩, ?_⟩
  · simp [processTurn, freshThread, clampPatch, hardFieldStep, validCount, validPlan,
      hp, hn, hn7, hres7, draftComplete, hts, maxProblemCount]
  · simp [processTurn, freshThread, clampPatch, hardFieldStep, validCount, validPlan,
      hp, hn, hn7, draftComplete, nextMissingField, FieldName.key, hts, maxProblemCount]

/-- C3 witness: the e2e inputs — "8 easy problems" clamps to 7 and is
READY; "8 problems" without difficulty stays CLARIFYING asking for
problem count. -/
theorem problem_count_clamping_policy_witness :
    ((processTurn freshThread false
        ⟨some .sql, some 8, some [⟨.easy, 8⟩], some ["filtering"], some .ret⟩
        ⟨some .sql, some 8, some [⟨.easy, 8⟩], some ["filtering"], some .ret⟩).2 =
        ⟨true, .READY, true, none, .ask,
         ⟨some .sql, some maxProblemCount,
          some (rescalePlan [⟨.easy, 8⟩] maxProblemCount), some ["filtering"],
          some .ret⟩⟩ ∧
      sumPlan (rescalePlan [⟨.easy, 8⟩] maxProblemCount) = maxProblemCount) ∧
    (processTurn freshThread false
        ⟨some .sql, some 8, none, some ["filtering"], some .ret⟩
        ⟨some .sql, some 8, some [⟨.easy, 8⟩], some ["filtering"], some .ret⟩).2 =
      ⟨true, .CLARIFYING, false, some "problem_count", .ask,
       ⟨some .sql, none, none, some ["filtering"], some .ret⟩⟩ :=
  problem_count_clamping_policy .sql 8 [⟨.easy, 8⟩] ["filtering"] .ret
    ⟨some .sql, some 8, some [⟨.easy, 8⟩], some ["filtering"], some .ret⟩
    (by decide) (by decide) (by decide) (by decide)

/-- C4: a user turn proposing a hard-field value (here the difficulty
distribution, as in the cited e2e test) without prior commitment to it
and without user-message evidence does not apply the value: the thread
enters CLARIFYING with a confirmation question (`next_action` confirm,
questionKey starting "confirm:"), the proposal is stored as a single
pending patch, an affirmative next message applies the pending patch and
advances to READY (the spec then being complete), and any other next
message discards the pending patch. -/
theorem hard_field_confirmation_gate (L : Language) (n : ℕ)
    (dp : List DiffCount) (ts : List String) (st : Style)
    (hn1 : 1 ≤ n) (hn7 : n ≤ maxProblemCount) (hsum : sumPlan dp = n)
    (hts : ts.isEmpty = false) :
    processTurn freshThread false
        ⟨some L, some n, none, some ts, some st⟩
        ⟨some L, some n, some dp, some ts, some st⟩ =
      (⟨.CLARIFYING, ⟨some L, some n, none, some ts, some st⟩,
        [.language, .problem_count], some ⟨none, none, some dp, none, none⟩, none⟩,
       ⟨true, .CLARIFYING, false, some "confirm:difficulty_plan", .confirm,
        ⟨some L, some n, none, some ts, some st⟩⟩) ∧
    processTurn
        ⟨.CLARIFYING, ⟨some L, some n, none, some ts, some st⟩,
          [.language, .problem_count], some ⟨none, none, some dp, none, none⟩, none⟩
        true ⟨none, none, none, none, none⟩ ⟨none, none, none, none, none⟩ =
      (⟨.READY, ⟨some L, some n, some dp, some ts, some st⟩,
        [.language, .problem_count, .difficulty_plan], none, none⟩,
       ⟨true, .READY, true, none, .ask, ⟨some L, some n, some dp, some ts, some st⟩⟩) ∧
    ((processTurn
        ⟨.CLARIFYING, ⟨some L, some n, none, some ts, some st⟩,
          [.language, .problem_count], some ⟨none, none, some dp, none, none⟩, none⟩
        false ⟨none, none, none, none, none⟩ ⟨none, none, none, none, none⟩).1.pending = none ∧
     (processTurn
        ⟨.CLARIFYING, ⟨some L, some n, none, some ts, some st⟩,
          [.language, .problem_count], some ⟨none, none, some dp, none, none⟩, none⟩
        false ⟨none, none, none, none, none⟩
          ⟨none, none, none, none, none⟩).1.draft.difficulty_plan = none) := by
  have hle : ¬ maxProblemCount < n := by omega
  have hv : (1 ≤ n ∧ n ≤ maxProblemCount) := ⟨hn1, hn7⟩
  have hts' : ¬ ts = [] := by simpa using hts
  refine ⟨?_, ?_, ?_⟩
  · simp [processTurn, freshThread, clampPatch, hardFieldStep, validCount, validPlan,
      hle, hv, hsum, hts', FieldName.key]
  · simp [processTurn, clampPatch, hardFieldStep, validCount, validPlan,
      draftComplete, hv, hsum, hts, hn1, hn7]
  · simp [processTurn, clampPatch, hardFieldStep, validCount, validPlan,
      draftComplete, nextMissingField, hv, hts, hn1, hn7]

/-- C4 witness: the e2e confirmation scenario — 4 SQL problems with a
proposed difficulty distribution lacking user evidence gates on
confirmation; "yes" applies it and reaches READY. -/
theorem hard_field_confirmation_gate_witness :
    processTurn freshThread false
        ⟨some .sql, some 4, none, some ["filtering"], some .ret⟩
        ⟨some .sql, some 4, some [⟨.easy, 4⟩], some ["filtering"], some .ret⟩ =
      (⟨.CLARIFYING, ⟨some .sql, some 4, none, some ["filtering"], some .ret⟩,
        [.language, .problem_count],
        some ⟨none, none, some [⟨.easy, 4⟩], none, none⟩, none⟩,
       ⟨true, .CLARIFYING, false, some "confirm:difficulty_plan", .confirm,
        ⟨some .sql, some 4, none, some ["filtering"], some .ret⟩⟩) ∧
    processTurn
        ⟨.CLARIFYING, ⟨some .sql, some 4, none, some ["filtering"], some .ret⟩,
          [.language, .problem_count],
          some ⟨none, none, some [⟨.easy, 4⟩], none, none⟩, none⟩
        true ⟨none, none, none, none, none⟩ ⟨none, none, none, none, none⟩ =
      (⟨.READY, ⟨some .sql, some 4, some [⟨.easy, 4⟩], some ["filtering"], some .ret⟩,
        [.language, .problem_count, .difficulty_plan], none, none⟩,
       ⟨true, .READY, true, none, .ask,
        ⟨some .sql, some 4, some [⟨.easy, 4⟩], some ["filtering"], some .ret⟩⟩) ∧
    ((processTurn
        ⟨.CLARIFYING, ⟨some .sql, some 4, none, some ["filtering"], some .ret⟩,
          [.language, .problem_count],
          some ⟨none, none, some [⟨.easy, 4⟩], none, none⟩, none⟩
        false ⟨none, none, none, none, none⟩ ⟨none, none, none, none, none⟩).1.pending = none ∧
     (processTurn
        ⟨.CLARIFYING, ⟨some .sql, some 4, none, some ["filtering"], some .ret⟩,
          [.language, .problem_count],
          some ⟨none, none, some [⟨.easy, 4⟩], none, none⟩, none⟩
        false ⟨none, none, none, none, none⟩
          ⟨none, none, none, none, none⟩).1.draft.difficulty_plan = none) :=
  hard_field_confirmation_gate .sql 4 [⟨.easy, 4⟩] ["filtering"] .ret
    (by decide) (by decide) (by decide) (by decide)

/-- C5: a slot whose drafting call always produces contract-invalid output
reaches the terminal FAILED state after exactly the policy attempt ceiling
of 3 attempts — never fewer and never more (the recorded attempt count in
the failed result is exactly 3). -/
theorem slot_retry_ceiling_exact (draftOf : ℕ → DraftAttempt)
    (sandbox : DraftObj → Bool)
    (h : ∀ a, ∃ d, draftOf a = .draft d ∧ validateProblemDraft d = false) :
    runSlot draftOf sandbox = .failed 3 := by
  obtain ⟨d0, h0, v0⟩ := h 0
  obtain ⟨d1, h1, v1⟩ := h 1
  obtain ⟨d2, h2, v2⟩ := h 2
  simp [runSlot, maxSlotAttempts, runSlotAux, h0, h1, h2, v0, v1, v2]

/-- C5 witness: an oracle that always drafts an invalid object fails after
exactly 3 attempts. -/
theorem slot_retry_ceiling_exact_witness :
    runSlot (fun _ => .draft badDraft) alwaysPass = .failed 3 :=
  slot_retry_ceiling_exact (fun _ => .draft badDraft) alwaysPass
    (fun _ => ⟨badDraft, rfl, by decide⟩)

/-- C7: the Contract Validator accepts a specification only when its
difficulty distribution sums exactly to the declared problem count (so it
rejects every mismatched distribution), and on every validator-accepted
specification the Planner succeeds. -/
theorem validator_sum_invariant_planner_total (s : ActivitySpec)
    (h : validateActivitySpec s = true) :
    sumPlan s.difficulty_plan = s.problem_count ∧
    ∃ slots, planSlots s = Except.ok slots := by
  have hs : sumPlan s.difficulty_plan = s.problem_count := by
    simp [validateActivitySpec] at h
    exact h.1.2
  exact ⟨hs, expandSpec s, by simp [planSlots, hs]⟩

/-- C7 witness: a concrete validator-accepted specification satisfies the
sum invariant and plans successfully. -/
theorem validator_sum_invariant_planner_total_witness :
    validateActivitySpec specEx = true ∧
    (sumPlan specEx.difficulty_plan = specEx.problem_count ∧
     ∃ slots, planSlots specEx = Except.ok slots) :=
  ⟨by decide, validator_sum_invariant_planner_total specEx (by decide)⟩

/-- C8: progress events are ordered and appended to a bounded per-run
buffer truncating oldest entries first; a subscriber attaching after N
events (N within capacity) immediately receives those N buffered events
before any event emitted after the subscription. -/
theorem progress_replay_then_live {α : Type} (cap : ℕ) (es fs : List α)
    (id : ℕ) (h : es.length ≤ cap) :
    subReceived (busEmitAll (busSubscribe (busEmitAll (busInit α cap) es) id) fs) id
      = some (es ++ fs) ∧
    ∀ gs : List α,
      (busEmitAll (busInit α cap) gs).buffer.length ≤ cap ∧
      ∃ k, (busEmitAll (busInit α cap) gs).buffer = gs.drop k := by
  constructor
  · have hbuf : (busEmitAll (busInit α cap) es).buffer = es := by
      have h1 := busEmitAll_buffer_of_le es (busInit α cap) (by simp [busInit]; omega)
      simpa [busInit] using h1
    have hsubs : (busEmitAll (busInit α cap) es).subs = [] :=
      busEmitAll_subs_nil es (busInit α cap) rfl
    have hrec : subReceived (busSubscribe (busEmitAll (busInit α cap) es) id) id
        = some es := by
      simp [subReceived, busSubscribe, hsubs, hbuf, List.lookup]
    exact subReceived_emitAll fs _ id es hrec
  · intro gs
    constructor
    · have h1 := busEmitAll_buffer_le gs (busInit α cap) (by simp [busInit])
      simpa [busInit] using h1
    · have h1 := busEmitAll_buffer_suffix gs (busInit α cap)
      simpa [busInit] using h1

/-- C8 witness: a subscriber attaching after three events replays them
before the later one. -/
theorem progress_replay_then_live_witness :
    subReceived
      (busEmitAll (busSubscribe (busEmitAll (busInit ℕ 100) [10, 11, 12]) 7) [13]) 7
      = some [10, 11, 12, 13] :=
  (progress_replay_then_live 100 [10, 11, 12] [13] 7 (by decide)).1

/-- C6: starting from a freshly created thread, the single message
"Create 4 easy problems in Python with return style. Topics: strings"
(with the advisory proposal the e2e stubs derive from the same message)
is accepted and reaches READY in one turn with problem count 4 and
language python; triggering generation with an always-valid drafting
oracle completes 4 slots, persists exactly one Activity with 4 problems,
and ends in state SAVED. -/
theorem happy_path_python_scenario :
    (processSessionMessage freshThread happyMsg (parsedPatch happyMsg)).2.accepted
      = true ∧
    (processSessionMessage freshThread happyMsg (parsedPatch happyMsg)).2.state
      = .READY ∧
    (processSessionMessage freshThread happyMsg (parsedPatch happyMsg)).2.done
      = true ∧
    (processSessionMessage freshThread happyMsg (parsedPatch happyMsg)).2.spec.problem_count
      = some 4 ∧
    (processSessionMessage freshThread happyMsg (parsedPatch happyMsg)).2.spec.language
      = some .python ∧
    (generateFromSession (processSessionMessage freshThread happyMsg (parsedPatch happyMsg)).1
        happyOracle alwaysPass).slotResults.length = 4 ∧
    (generateFromSession (processSessionMessage freshThread happyMsg (parsedPatch happyMsg)).1
        happyOracle alwaysPass).slotResults.all (fun r => !r.isFailed) = true ∧
    ((generateFromSession (processSessionMessage freshThread happyMsg (parsedPatch happyMsg)).1
        happyOracle alwaysPass).activity.map fun a => a.problems.length) = some 4 ∧
    (generateFromSession (processSessionMessage freshThread happyMsg (parsedPatch happyMsg)).1
        happyOracle alwaysPass).state = .SAVED := by
  decide

/-- C9 counterexample: the filename "." passes every check of
`writeUserFiles` — it is non-empty, short, relative, NUL-free, and
`isSubPath` accepts `full === root` — so the write is performed at the
root directory path itself, which is not strictly inside the root.  The
claim that every file written is located strictly inside `rootDir` is
therefore false. -/
theorem writeUserFiles_dot_write_at_root :
    writeUserFiles rootEx [(".", "x")] =
      ⟨[⟨["tmp", "codemm"], "x"⟩], none⟩ ∧
    normalizeSegs rootEx = ["tmp", "codemm"] ∧
    strictlyInside ["tmp", "codemm"] ["tmp", "codemm"] = false := by
  decide

/-- C9 amended: every write `writeUserFiles` performs — including writes
done before a later entry throws — lands at the resolved root or strictly
inside it, never strictly outside; and a single-entry call whose filename
is empty, over-long, absolute, NUL-carrying, or resolving outside the root
throws an error. -/
theorem writeUserFiles_never_outside_root :
    (∀ (root : List String) (files : List (String × String)) (w : FileWrite),
        w ∈ (writeUserFiles root files).writes →
        isSubPathSegs (normalizeSegs root) w.path = true) ∧
    (∀ (root : List String) (fname src : String),
        (isBlank fname = true ∨ 256 < fname.length ∨ isAbsoluteName fname = true ∨
          containsNul fname = true ∨
          isSubPathSegs (normalizeSegs root)
            (resolveSegs (normalizeSegs root) (splitSlashes fname)) = false) →
        ((writeUserFiles root [(fname, src)]).error).isSome = true) := by
  constructor
  · intro root files w hw
    exact writeUserFilesGo_inside (normalizeSegs root) files []
      (by intro w' hw'; cases hw') w hw
  · intro root fname src h
    unfold writeUserFiles writeUserFilesGo
    cases hpe : filenamePreError fname with
    | some e => simp
    | none =>
      have hok := (filenamePreError_none_iff fname).mp hpe
      rcases h with h | h | h | h | h
      · rw [hok.1] at h; cases h
      · exact absurd h hok.2.1
      · rw [hok.2.2.1] at h; cases h
      · rw [hok.2.2.2] at h; cases h
      · simp only
        rw [if_neg (by rw [h]; exact Bool.false_ne_true)]
        rfl

/-- C9 amended witness: a traversal filename errors, and a nested filename
resolves to a path at or under the root. -/
theorem writeUserFiles_never_outside_root_witness :
    ((writeUserFiles rootEx [("../evil.py", "x")]).error).isSome = true ∧
    isSubPathSegs (normalizeSegs rootEx)
      (FileWrite.mk ["tmp", "codemm", "sub", "a.py"] "x").path = true :=
  ⟨writeUserFiles_never_outside_root.2 rootEx "../evil.py" "x"
     (Or.inr (Or.inr (Or.inr (Or.inr (by decide))))),
   writeUserFiles_never_outside_root.1 rootEx [("sub/a.py", "x")]
     (FileWrite.mk ["tmp", "codemm", "sub", "a.py"] "x") (by decide)⟩

/-- C10 counterexample: `getJudgeTimeoutMs` is not always positive — the
environment value 0.5 is finite and positive, so it escapes the default,
and `Math.min(Math.floor(0.5), 30000)` is 0. -/
theorem judge_timeout_zero_on_fractional :
    getJudgeTimeoutMs (some (.finite (1 / 2))) = 0 ∧
    ¬ 0 < getJudgeTimeoutMs (some (.finite (1 / 2))) := by
  have hf : Rat.floor (1 / 2 : ℚ) = 0 := by
    have h0 : (0 : ℤ) ≤ Rat.floor (1 / 2 : ℚ) := Rat.le_floor.mpr (by norm_num)
    have h1 : ¬ (1 : ℤ) ≤ Rat.floor (1 / 2 : ℚ) := by
      rw [Rat.le_floor]
      norm_num
    omega
  have hv : getJudgeTimeoutMs (some (.finite (1 / 2))) = min (Rat.floor (1 / 2 : ℚ)) 30000 := by
    simp [getJudgeTimeoutMs, show ¬ (1 / 2 : ℚ) ≤ 0 by norm_num]
  rw [hv, hf]
  norm_num

/-- C10 amended: `getJudgeTimeoutMs` returns 15000 when the value is
missing, non-finite or not positive, otherwise `min (floor q) 30000`; the
result never exceeds 30000 and is never negative, and it is positive
whenever the configured value is at least 1 — but a fractional value
strictly between 0 and 1 yields 0, so the result is not always positive. -/
theorem judge_timeout_bounded_formula (v : Option JsNum) :
    getJudgeTimeoutMs v ≤ 30000 ∧ 0 ≤ getJudgeTimeoutMs v ∧
    (∀ q : ℚ, v = some (.finite q) → 0 < q →
      getJudgeTimeoutMs v = min (Rat.floor q) 30000) ∧
    (∀ q : ℚ, v = some (.finite q) → q ≤ 0 → getJudgeTimeoutMs v = 15000) ∧
    ((v = none ∨ v = some .nan ∨ v = some .posInf ∨ v = some .negInf) →
      getJudgeTimeoutMs v = 15000) ∧
    (∀ q : ℚ, v = some (.finite q) → 1 ≤ q → 0 < getJudgeTimeoutMs v) := by
  cases v with
  | none =>
    refine ⟨by decide, by decide, ?_, ?_, fun _ => rfl, ?_⟩ <;>
      (intro q hq; cases hq)
  | some w =>
    cases w with
    | nan =>
      refine ⟨by decide, by decide, ?_, ?_, fun _ => rfl, ?_⟩ <;>
        (intro q hq; cases hq)
    | posInf =>
      refine ⟨by decide, by decide, ?_, ?_, fun _ => rfl, ?_⟩ <;>
        (intro q hq; cases hq)
    | negInf =>
      refine ⟨by decide, by decide, ?_, ?_, fun _ => rfl, ?_⟩ <;>
        (intro q hq; cases hq)
    | finite q =>
      by_cases hq : q ≤ 0
      · have hv : getJudgeTimeoutMs (some (.finite q)) = 15000 := by
          simp [getJudgeTimeoutMs, hq]
        refine ⟨by rw [hv]; norm_num, by rw [hv]; norm_num, ?_, ?_, ?_, ?_⟩
        · intro q' hq' hpos
          have hqq : q = q' := by
            injection hq' with h1
            injection h1 with h2
          subst hqq
          exact absurd hpos (not_lt.mpr hq)
        · intro q' _ _
          exact hv
        · intro hcase
          rcases hcase with hc | hc | hc | hc <;> cases hc
        · intro q' hq' hone
          have hqq : q = q' := by
            injection hq' with h1
            injection h1 with h2
          subst hqq
          have h0 : (0 : ℚ) < q := lt_of_lt_of_le one_pos hone
          exact absurd h0 (not_lt.mpr hq)
      · have hpos : 0 < q := lt_of_not_ge hq
        have hv : getJudgeTimeoutMs (some (.finite q)) = min (Rat.floor q) 30000 := by
          simp [getJudgeTimeoutMs, hq]
        have hfl : 0 ≤ Rat.floor q := by
          rw [Rat.le_floor]
          exact_mod_cast le_of_lt hpos
        refine ⟨by rw [hv]; exact min_le_right _ _,
                by rw [hv]; exact le_min hfl (by norm_num), ?_, ?_, ?_, ?_⟩
        · intro q' hq' _
          have hqq : q = q' := by
            injection hq' with h1
            injection h1 with h2
          subst hqq
          exact hv
        · intro q' hq' hle
          have hqq : q = q' := by
            injection hq' with h1
            injection h1 with h2
          subst hqq
          exact absurd hle (not_le.mpr hpos)
        · intro hcase
          rcases hcase with hc | hc | hc | hc <;> cases hc
        · intro q' hq' hone
          have hqq : q = q' := by
            injection hq' with h1
            injection h1 with h2
          subst hqq
          have h1 : 1 ≤ Rat.floor q := by
            rw [Rat.le_floor]
            exact_mod_cast hone
          rw [hv]
          exact lt_min (lt_of_lt_of_le one_pos h1) (by norm_num)

/-- C10 amended witness: a positive integral value follows the min/floor
formula and is positive. -/
theorem judge_timeout_bounded_formula_witness :
    getJudgeTimeoutMs (some (.finite 2)) = min (Rat.floor 2) 30000 ∧
    0 < getJudgeTimeoutMs (some (.finite 2)) :=
  ⟨(judge_timeout_bounded_formula (some (.finite 2))).2.2.1 2 rfl (by norm_num),
   (judge_timeout_bounded_formula (some (.finite 2))).2.2.2.2.2 2 rfl (by norm_num)⟩

end Codemm
